import Mathlib

/-!
Verification of the ShellAdventure tutorial core against its code.

The embedding follows the two source files:
  * shell_adventure/tutorial.py        (host side: Puzzle, Tutorial.solve_puzzle)
  * shell_adventure_docker/tutorial_docker.py
        (sandbox side: TutorialDocker.generate, solve_puzzle, connect_to_shell,
         student_cwd, and the message loop of run)
Parts of the repository that are referenced but absent from the sources
(the shared Puzzle class with its uuid, the snapshot/undo manager, the
dependency-unlock step) are modelled from the specification; each such
definition carries a doc comment starting with: Modelled from the spec.
-/

namespace ShellAdventure

/-- A Python value as far as checker results are concerned.  Checkers are
arbitrary Python functions, so besides bool and str they can return ints,
None, or anything else (collapsed into a type name). -/
inductive PyVal where
  | bool (b : Bool)
  | str (s : String)
  | int (n : Int)
  | pyNone
  | other (t : String)
deriving DecidableEq

/-- The Python type name of the value, as produced by type(x)._ _name_ _. -/
def PyVal.typeName : PyVal → String
  | PyVal.bool _ => "bool"
  | PyVal.str _ => "str"
  | PyVal.int _ => "int"
  | PyVal.pyNone => "NoneType"
  | PyVal.other t => t

/-- Whether the value is a Python str (isinstance(x, str)). -/
def PyVal.isStr : PyVal → Bool
  | PyVal.str _ => true
  | _ => false

/-- Python equality test x == True.  In Python, True == 1, so an int equal
to 1 also passes this test (bool is a subclass of int). -/
def pyEqTrue : PyVal → Bool
  | PyVal.bool b => b
  | PyVal.int n => n == 1
  | _ => false

/-- Python equality test x == False.  In Python, False == 0. -/
def pyEqFalse : PyVal → Bool
  | PyVal.bool b => !b
  | PyVal.int n => n == 0
  | _ => false

/-- The message of the exception raised for a checker result that falls
through every branch of the classification
(tutorial.py line 205, tutorial_docker.py line 128). -/
def checkerErrMsg (question : String) (r : PyVal) : String :=
  "Checker function for puzzle \"" ++ question ++ "\" returned " ++
    PyVal.typeName r ++ ", bool or str expected."

/-- The checker-result classification shared by Tutorial.solve_puzzle
(tutorial.py lines 197-205) and TutorialDocker.solve_puzzle
(tutorial_docker.py lines 120-128): the chain
if checker_result == True / elif checker_result == False /
elif isinstance(checker_result, str) / else raise.
Returns (the new value of the solved flag, the feedback string). -/
def checkerVerdict (question : String) (solved : Bool) (r : PyVal) :
    Except String (Bool × String) :=
  if pyEqTrue r then Except.ok (true, "Correct!")
  else if pyEqFalse r then Except.ok (solved, "Incorrect!")
  else
    match r with
    | PyVal.str s => Except.ok (solved, s)
    | _ => Except.error (checkerErrMsg question r)

/-- The sandbox-side Puzzle (imported in tutorial_docker.py from the support
module).  The checker takes the optional flag argument and the optional
student cwd; call_with_args passes the declared subset of these. -/
structure Puzzle where
  id : Nat
  question : String
  score : Int
  checkerParams : List String
  checker : Option String → Option String → PyVal
  solved : Bool

/-- Modelled from the spec: the Puzzle constructor of the support module is
not under src (only tutorial_docker.py imports it and test_puzzle.py tests
it); per the spec the constructor stores the question, score and checker and
initialises the solved flag to false, with a fresh id unique per instance
(a uuid; modelled as a Nat supplied by the caller from a counter).  The host
Puzzle under src (tutorial.py lines 63-67) likewise sets self.solved = False. -/
def Puzzle.init (id : Nat) (question : String) (score : Int)
    (checkerParams : List String)
    (checker : Option String → Option String → PyVal) : Puzzle :=
  { id := id, question := question, score := score,
    checkerParams := checkerParams, checker := checker, solved := false }

/-- Applying the checker-result classification to one puzzle, given the
value the checker returned: the solved flag is mutated to the new value
(true branch of tutorial_docker.py line 121; otherwise left as it was) and
the returned pair is (puzzle.solved, feedback) as at line 130. -/
def solveOne (p : Puzzle) (r : PyVal) : Except String (Puzzle × (Bool × String)) :=
  match checkerVerdict p.question p.solved r with
  | Except.ok (ns, fb) => Except.ok ({ p with solved := ns }, (ns, fb))
  | Except.error e => Except.error e

/-- Lookup in a Python dict represented as an association list in insertion
order. -/
def dictLookup {α β : Type} [DecidableEq α] (k : α) : List (α × β) → Option β
  | [] => Option.none
  | e :: t => if e.1 = k then Option.some e.2 else dictLookup k t

/-- Python dict assignment d[k] = v: replaces in place when the key exists,
appends when it is new (Python dicts preserve insertion order). -/
def dictSet {α β : Type} [DecidableEq α] : List (α × β) → α → β → List (α × β)
  | [], k, v => [(k, v)]
  | e :: t, k, v => if e.1 = k then (k, v) :: t else e :: dictSet t k v

/-- What a puzzle generator supplies to the Puzzle constructor (the body of
a generator function, abstracted: its filesystem side effects are outside
the model). -/
structure PuzzleSpecArg where
  question : String
  score : Int
  checkerParams : List String
  checker : Option String → Option String → PyVal

/-- The container environment outside the control of tutorial_docker.py:
the pidof lookups (one list of pids per attempt of the retry loop), the
pwdx result for a pid, and symlink resolution of File.resolve. -/
structure DockerEnv where
  attempts : String → Nat → List Nat
  cwdOf : Nat → String
  resolve : String → String

/-- The mutable state of a TutorialDocker instance: the generator mapping
built in _ _init_ _, the puzzles dict (populated by generate), the uuid
counter (see Puzzle.init), and the connected shell pid.  The data_dir, home
and the process working directory (os.chdir(self.home)) carry no observable
state for the verified claims and are omitted. -/
structure DockerState where
  generators : List (String × PuzzleSpecArg)
  puzzles : List (Nat × Puzzle)
  nextId : Nat
  shellPid : Option Nat

/-- The state right after TutorialDocker._ _init_ _: puzzles empty
(line 57), shell_pid None (line 58). -/
def initState (gens : List (String × PuzzleSpecArg)) : DockerState :=
  { generators := gens, puzzles := [], nextId := 0, shellPid := Option.none }

/-- Well-formedness: every key of the puzzles dict was drawn from the
id counter, hence is below its current value.  This is the uniqueness of
puzzle ids (uuids in the source). -/
def WFp (st : DockerState) : Prop := ∀ e ∈ st.puzzles, e.1 < st.nextId

/-- Python s.split(sep, 1): at most one split, at the first occurrence. -/
def pySplit1 (s sep : String) : List String :=
  match s.splitOn sep with
  | [] => [s]
  | [x] => [x]
  | x :: rest => [x, String.intercalate sep rest]

/-- The output of pwdx pid: "pid: /path/to/folder\n"
(tutorial_docker.py line 168). -/
def pwdxOutput (cwdOf : Nat → String) (pid : Nat) : String :=
  toString pid ++ ": " ++ cwdOf pid ++ "\n"

/-- TutorialDocker.student_cwd (tutorial_docker.py lines 159-170): returns
None if shell_pid is not set (per its own docstring); otherwise runs pwdx,
splits off the prefix up to ": ", drops the trailing newline and resolves
the path. -/
def TutorialDocker.student_cwd (env : DockerEnv) (st : DockerState) : Option String :=
  match st.shellPid with
  | Option.none => Option.none
  | Option.some pid =>
    let result := pwdxOutput env.cwdOf pid
    let cwd := String.dropRight (List.getD (pySplit1 result ": ") 1 "") 1
    Option.some (env.resolve cwd)

/-- Modelled from the Python standard library: PurePosixPath(x) raises a
TypeError when x is None and wraps the path when x is a str or path. -/
def purePosixPathOf : Option String → Except String String
  | Option.none =>
      Except.error "TypeError: expected str, bytes or os.PathLike object, not NoneType"
  | Option.some s => Except.ok s

/-- The GET_STUDENT_CWD action of the message loop (tutorial_docker.py
line 187): lambda: PurePosixPath(self.student_cwd()). -/
def getStudentCwdAction (env : DockerEnv) (st : DockerState) : Except String String :=
  purePosixPathOf (TutorialDocker.student_cwd env st)

/-- The attempt count of the retry loop of connect_to_shell
(tutorial_docker.py line 136: tries=40). -/
def retryTries : Nat := 40

/-- The delay between attempts in milliseconds (line 136: delay=0.2, i.e.
0.2 seconds). -/
def retryDelayMilliseconds : Nat := 200

/-- retry_call(f, tries, delay): re-runs f while it raises, up to the given
number of tries; here f is pidof, which fails exactly when the pid list is
empty.  Returns the first non-empty pid list among the attempts, none when
every attempt failed. -/
def retryCall (attempts : Nat → List Nat) : Nat → Nat → Option (List Nat)
  | _, 0 => Option.none
  | k, t + 1 =>
    if (attempts k).isEmpty then retryCall attempts (k + 1) t
    else Option.some (attempts k)

/-- TutorialDocker.connect_to_shell (tutorial_docker.py lines 132-143):
pidof is retried 40 times; if every attempt fails the CalledProcessError
becomes a ProcessLookupError (no process); if the output holds more than
one pid, int() raises ValueError which becomes the distinct
ProcessLookupError (multiple processes); a single pid is stored in
self.shell_pid and returned. -/
def TutorialDocker.connect_to_shell (env : DockerEnv) (st : DockerState)
    (name : String) : DockerState × Except String Nat :=
  match retryCall (env.attempts name) 0 retryTries with
  | Option.none =>
      (st, Except.error ("No process named \"" ++ name ++ "\" found."))
  | Option.some pids =>
    match pids with
    | [pid] => ({ st with shellPid := Option.some pid }, Except.ok pid)
    | _ => (st, Except.error ("Multiple processes named \"" ++ name ++ "\" found."))

/-- TutorialDocker.generate (tutorial_docker.py lines 85-103): iterates over
the requested generator ids; for each id, first asserts membership in the
generator mapping, then runs the generator and stores the puzzle under its
id in self.puzzles; finally returns list(self.puzzles.values()), i.e. every
puzzle accumulated so far, not only the ones of this call.  The returned
state records the mutations made before an error, exactly as the Python
self.puzzles dict survives the raised assertion. -/
def TutorialDocker.generate (st : DockerState) (puzzle_generators : List String) :
    DockerState × Except String (List Puzzle) :=
  match puzzle_generators with
  | [] => (st, Except.ok (st.puzzles.map Prod.snd))
  | g :: rest =>
    match dictLookup g st.generators with
    | Option.none => (st, Except.error ("Unknown puzzle generator " ++ g ++ "."))
    | Option.some spec =>
      TutorialDocker.generate
        { st with
          puzzles := dictSet st.puzzles st.nextId
            (Puzzle.init st.nextId spec.question spec.score
              spec.checkerParams spec.checker),
          nextId := st.nextId + 1 } rest

/-- TutorialDocker.solve_puzzle (tutorial_docker.py lines 105-130): looks
the puzzle up by id (a missing id is a KeyError), calls the checker with
the flag and the student cwd, classifies the result, stores the possibly
updated solved flag and returns (puzzle.solved, feedback). -/
def TutorialDocker.solve_puzzle (env : DockerEnv) (st : DockerState)
    (puzzle_id : Nat) (flag : Option String) :
    DockerState × Except String (Bool × String) :=
  match dictLookup puzzle_id st.puzzles with
  | Option.none => (st, Except.error "KeyError")
  | Option.some puzzle =>
    match solveOne puzzle (puzzle.checker flag (TutorialDocker.student_cwd env st)) with
    | Except.ok (p', pair) =>
        ({ st with puzzles := dictSet st.puzzles puzzle_id p' }, Except.ok pair)
    | Except.error e => (st, Except.error e)

/-- The request messages of the IPC loop (tutorial_docker.py lines 182-189);
STOP ends the loop without touching the state and is omitted. -/
inductive DockerMsg where
  | generate (gens : List String)
  | solve (puzzle_id : Nat) (flag : Option String)
  | connectToShell (name : String)
  | getStudentCwd
  | getFiles (folder : String)

/-- The state transition of one handled message: generate and solve mutate
the puzzles dict, connect_to_shell stores the shell pid, the two queries
leave the state unchanged. -/
def dockerStep (env : DockerEnv) (st : DockerState) : DockerMsg → DockerState
  | DockerMsg.generate gens => (TutorialDocker.generate st gens).1
  | DockerMsg.solve pid flag => (TutorialDocker.solve_puzzle env st pid flag).1
  | DockerMsg.connectToShell name => (TutorialDocker.connect_to_shell env st name).1
  | DockerMsg.getStudentCwd => st
  | DockerMsg.getFiles _ => st

/-- A whole session: the messages handled one after the other on the single
channel. -/
def dockerRun (env : DockerEnv) (st : DockerState) (ops : List DockerMsg) : DockerState :=
  ops.foldl (dockerStep env) st

/-- Whether a message is a successful solve of the given puzzle: the solve
message for this id whose checker evaluation passes the x == True test. -/
def solveSuccessFor (env : DockerEnv) (st : DockerState) (m : DockerMsg)
    (pid : Nat) (p : Puzzle) : Bool :=
  match m with
  | DockerMsg.solve pid' flag =>
      pid' == pid && pyEqTrue (p.checker flag (TutorialDocker.student_cwd env st))
  | _ => false

/-- The host-side Puzzle of tutorial.py (lines 36-70).  Its checker receives
the flag and the (opaque, session-constant) FileSystem object, which is
absorbed into the function. -/
structure HostPuzzle where
  question : String
  score : Int
  checkerParams : List String
  checker : Option String → PyVal
  solved : Bool

/-- Puzzle._ _init_ _ of tutorial.py (lines 63-67): stores the question,
score and checker and sets self.solved = False.  It performs no validation
of the declared checker parameter names. -/
def HostPuzzle.init (question : String)
    (checker : Option String → PyVal) (checkerParams : List String)
    (score : Int) : HostPuzzle :=
  { question := question, score := score, checkerParams := checkerParams,
    checker := checker, solved := false }

/-- The message of the assert in Tutorial.solve_puzzle (tutorial.py
line 192), raised when the checker declares a parameter outside the args
dict; it does not mention the offending parameter name. -/
def hostAssertMsg : String :=
  "Only paramaters, \"flag\", \"file_system\" and \"output\" are allowed in checker functions."

/-- Tutorial.solve_puzzle (tutorial.py lines 183-207): builds the args dict
with keys flag and file_system, asserts that the declared checker parameters
are a subset of those keys (the first point at which parameter names are
checked at all), then calls the checker and classifies the result exactly as
the sandbox side does. -/
def Tutorial.solve_puzzle (p : HostPuzzle) (flag : Option String) :
    Except String (HostPuzzle × (Bool × String)) :=
  if p.checkerParams.all (fun x => x == "flag" || x == "file_system") then
    match checkerVerdict p.question p.solved (p.checker flag) with
    | Except.ok (ns, fb) => Except.ok ({ p with solved := ns }, (ns, fb))
    | Except.error e => Except.error e
  else Except.error hostAssertMsg

/-- Whether the first list of characters stands at the head of the second. -/
def listStarts : List Char → List Char → Bool
  | [], _ => true
  | _ :: _, [] => false
  | a :: as, b :: bs => a == b && listStarts as bs

/-- Whether the first list of characters occurs contiguously inside the
second (substring test). -/
def occursIn (pat : List Char) : List Char → Bool
  | [] => listStarts pat []
  | s@(_ :: t) => listStarts pat s || occursIn pat t

/-- Modelled from the spec: one committed snapshot of the undo stack — an
image reference plus the recorded solved state of every puzzle at commit
time (spec §3, Undo Entry).  The snapshot/undo manager is not under src;
only test_undo.py exercises it. -/
structure UndoEntry where
  image : Nat
  puzzleSolvedState : List (Nat × Bool)
deriving DecidableEq

/-- Modelled from the spec: the snapshot/undo manager state (§4.2) — the
enabled flag from the configuration and the stack of committed entries,
most recent first. -/
structure UndoManager where
  enabled : Bool
  stack : List UndoEntry
deriving DecidableEq

/-- Modelled from the spec: commit (§4.2) — a no-op when undo is disabled
(test_undo_disabled), otherwise pushes the freshly captured entry. -/
def commit (m : UndoManager) (e : UndoEntry) : UndoManager :=
  if m.enabled then { m with stack := e :: m.stack } else m

/-- Modelled from the spec: canUndo (§4.2) — true only with more than one
entry on the stack (test_undo_empty_stack: a single entry means nothing to
undo). -/
def canUndo (m : UndoManager) : Bool := decide (1 < m.stack.length)

/-- Modelled from the spec: undo (§4.2) — a no-op when canUndo is false,
otherwise drops the top entry and restores the one below it (the stack
length observed in test_undo.py decreases by one). -/
def undo (m : UndoManager) : UndoManager :=
  if canUndo m then { m with stack := m.stack.tail } else m

/-- Modelled from the spec: restart (§4.2) — collapses the stack to its
single bottom entry (test_redo: len(undo_list) == 1 afterwards). -/
def restart (m : UndoManager) : UndoManager :=
  { m with stack :=
      match m.stack.getLast? with
      | Option.some e => [e]
      | Option.none => [] }

/-- The operations of the undo state machine. -/
inductive UndoOp where
  | commitOp (e : UndoEntry)
  | undoOp
  | restartOp
deriving DecidableEq

/-- One operation applied to the manager. -/
def undoApply (m : UndoManager) : UndoOp → UndoManager
  | UndoOp.commitOp e => commit m e
  | UndoOp.undoOp => undo m
  | UndoOp.restartOp => restart m

/-- A sequence of commit/undo/restart operations. -/
def undoRun (m : UndoManager) (ops : List UndoOp) : UndoManager :=
  ops.foldl undoApply m

/-- A node of the puzzle dependency forest (tutorial.py lines 124-129,
PuzzleTree): a generator reference, the generated puzzle once produced
(none until generation) and, instead of a nested list of children, each
node records the index of its parent node (none for the roots); the
ordered forest is the list of nodes. -/
structure TreeNode where
  generator : String
  parent : Option Nat
  puzzle : Option Puzzle

/-- Modelled from the spec: invoking the generator of a tree node (§4.4);
the node index serves as the fresh puzzle id, and the constructor makes the
puzzle unsolved. -/
def mkGenerated (gens : String → PuzzleSpecArg) (i : Nat) (g : String) : Puzzle :=
  Puzzle.init i (gens g).question (gens g).score (gens g).checkerParams
    (gens g).checker

/-- Modelled from the spec: generateRoots (§4.4) fills the puzzle of a root
node; nodes with a parent, and nodes already generated, are left alone. -/
def fillRoot (gens : String → PuzzleSpecArg) (e : Nat × TreeNode) : TreeNode :=
  if e.2.parent.isNone && e.2.puzzle.isNone then
    { e.2 with puzzle := Option.some (mkGenerated gens e.1 e.2.generator) }
  else e.2

/-- Modelled from the spec: onSolved (§4.4) fills the puzzle of each not yet
generated dependent of the node at index i; other nodes are left alone. -/
def fillChild (gens : String → PuzzleSpecArg) (i : Nat) (e : Nat × TreeNode) : TreeNode :=
  if e.2.parent == Option.some i && e.2.puzzle.isNone then
    { e.2 with puzzle := Option.some (mkGenerated gens e.1 e.2.generator) }
  else e.2

/-- The operations the host performs on the forest. -/
inductive HostOp where
  | generateRoots
  | solveNode (i : Nat) (r : PyVal)

/-- Modelled from the spec: the forest transitions (§4.4).  generateRoots
generates every root puzzle.  solveNode i r solves the generated puzzle at
index i against the checker result r using the same classification as
solve_puzzle; on success the solved flag is stored and the dependents of
node i are generated (onSolved).  Solving an absent node, an ungenerated
puzzle, or getting an invalid checker result leaves the forest unchanged. -/
def hostStep (gens : String → PuzzleSpecArg) (f : List TreeNode) : HostOp → List TreeNode
  | HostOp.generateRoots => (f.enum).map (fillRoot gens)
  | HostOp.solveNode i r =>
    match f.get? i with
    | Option.none => f
    | Option.some n =>
      match n.puzzle with
      | Option.none => f
      | Option.some p =>
        match checkerVerdict p.question p.solved r with
        | Except.error _ => f
        | Except.ok (ns, _) =>
          let f1 := f.set i { n with puzzle := Option.some { p with solved := ns } }
          if ns then (f1.enum).map (fillChild gens i) else f1

/-- A sequence of host operations applied to the forest. -/
def hostRun (gens : String → PuzzleSpecArg) (f : List TreeNode)
    (ops : List HostOp) : List TreeNode :=
  ops.foldl (hostStep gens) f

/-- The node at index i carries a generated, solved puzzle. -/
def parentSolved (f : List TreeNode) (i : Nat) : Prop :=
  ∃ m p, f.get? i = Option.some m ∧ m.puzzle = Option.some p ∧ p.solved = true

/-- Every generated dependent has a solved parent: the puzzle of a
dependent node stays none until the parent is solved, and dependents of an
unsolved node are never generated. -/
def depInv (f : List TreeNode) : Prop :=
  ∀ j n i, f.get? j = Option.some n → n.parent = Option.some i →
    n.puzzle.isSome = true → parentSolved f i

/-- Every dependent of a solved node is generated: right after a parent is
solved its dependents carry puzzles. -/
def depFull (f : List TreeNode) : Prop :=
  ∀ i, parentSolved f i → ∀ j n, f.get? j = Option.some n →
    n.parent = Option.some i → n.puzzle.isSome = true

/-! Concrete sample data used to instantiate the theorems below. -/

/-- A sample generator body whose checker always returns True. -/
def spec0 : PuzzleSpecArg :=
  { question := "Rename A.txt to B.txt", score := 1, checkerParams := [],
    checker := fun _ _ => PyVal.bool true }

/-- A generator mapping holding the single sample generator. -/
def gens0 : List (String × PuzzleSpecArg) := [("puzzles.move", spec0)]

/-- The first puzzle generated from the sample generator (id 0). -/
def p0 : Puzzle :=
  Puzzle.init 0 spec0.question spec0.score spec0.checkerParams spec0.checker

/-- The sample puzzle after a successful solve. -/
def p1 : Puzzle := { p0 with solved := true }

/-- The second puzzle generated from the sample generator (id 1). -/
def pB : Puzzle :=
  Puzzle.init 1 spec0.question spec0.score spec0.checkerParams spec0.checker

/-- A container environment in which pidof never finds a process. -/
def env0 : DockerEnv :=
  { attempts := fun _ _ => [], cwdOf := fun _ => "/home/student",
    resolve := fun s => s }

/-- A container environment in which pidof finds the single pid 7 from the
fourth attempt on. -/
def envOne : DockerEnv :=
  { attempts := fun _ k => if k < 3 then [] else [7],
    cwdOf := fun _ => "/home/student", resolve := fun s => s }

/-- A container environment in which pidof always finds the two pids 5, 6. -/
def envMany : DockerEnv :=
  { attempts := fun _ _ => [5, 6], cwdOf := fun _ => "/home/student",
    resolve := fun s => s }

/-- The sandbox state right after construction with no generators. -/
def stEmpty : DockerState := initState []

/-- The sandbox state after one GENERATE of the sample generator. -/
def stA : DockerState :=
  (TutorialDocker.generate (initState gens0) ["puzzles.move"]).1

/-- The sandbox state after additionally solving puzzle 0. -/
def stB : DockerState := { stA with puzzles := dictSet stA.puzzles 0 p1 }

/-- The sandbox state after a second GENERATE of the sample generator. -/
def stC : DockerState := (TutorialDocker.generate stA ["puzzles.move"]).1

/-- A checker declaring the single unrecognized parameter name blah
(test_puzzle.py line 16: lambda blah: False). -/
def blahChecker : Option String → PyVal := fun _ => PyVal.bool false

/-- The puzzle of test_puzzle.py line 15-16, constructed with the host
Puzzle class of tutorial.py. -/
def blahPuzzle : HostPuzzle :=
  HostPuzzle.init "Solve this puzzle." blahChecker ["blah"] 1

/-- A sample undo entry. -/
def e0 : UndoEntry := { image := 0, puzzleSolvedState := [] }

/-- An enabled undo manager with an empty stack. -/
def undoM0 : UndoManager := { enabled := true, stack := [] }

/-- An enabled undo manager sitting at the bottom of its stack. -/
def undoMB : UndoManager := { enabled := true, stack := [e0] }

/-- A generator table for the forest model. -/
def gensF : String → PuzzleSpecArg := fun _ => spec0

/-- A root node of the sample forest. -/
def nodeRoot : TreeNode :=
  { generator := "puzzles.move", parent := Option.none, puzzle := Option.none }

/-- A dependent of the root node. -/
def nodeChild : TreeNode :=
  { generator := "puzzles.move", parent := Option.some 0, puzzle := Option.none }

/-- The sample forest: one root with one dependent. -/
def forest0 : List TreeNode := [nodeRoot, nodeChild]

/-! Helper lemmas about the dict model. -/

theorem dictLookup_dictSet_self {α β : Type} [DecidableEq α]
    (l : List (α × β)) (k : α) (v : β) :
    dictLookup k (dictSet l k v) = Option.some v := by
  induction l with
  | nil => simp [dictSet, dictLookup]
  | cons e t ih =>
    by_cases h : e.1 = k
    · simp [dictSet, h, dictLookup]
    · simp [dictSet, h, dictLookup, ih]

theorem dictLookup_dictSet_ne {α β : Type} [DecidableEq α]
    (l : List (α × β)) (k k' : α) (v : β) (h : k' ≠ k) :
    dictLookup k' (dictSet l k v) = dictLookup k' l := by
  have hsymm : k ≠ k' := Ne.symm h
  induction l with
  | nil => simp [dictSet, dictLookup, hsymm]
  | cons e t ih =>
    by_cases he : e.1 = k
    · subst he
      simp [dictSet, dictLookup, hsymm]
    · simp [dictSet, dictLookup, he, ih]

theorem mem_of_dictLookup {α β : Type} [DecidableEq α] {l : List (α × β)}
    {k : α} {v : β} (h : dictLookup k l = Option.some v) : (k, v) ∈ l := by
  induction l with
  | nil => simp [dictLookup] at h
  | cons e t ih =>
    obtain ⟨a, b⟩ := e
    simp only [dictLookup] at h
    by_cases he : a = k
    · rw [if_pos he] at h
      injection h with hb
      subst he
      subst hb
      exact List.mem_cons_self _ _
    · rw [if_neg he] at h
      exact List.mem_cons_of_mem _ (ih h)

theorem mem_dictSet {α β : Type} [DecidableEq α] {l : List (α × β)}
    {k : α} {v : β} {e : α × β} (h : e ∈ dictSet l k v) : e ∈ l ∨ e = (k, v) := by
  induction l with
  | nil =>
    simp [dictSet] at h
    exact Or.inr h
  | cons e1 t ih =>
    by_cases he : e1.1 = k
    · rw [show dictSet (e1 :: t) k v = (k, v) :: t from by simp [dictSet, he]] at h
      rcases List.mem_cons.mp h with h1 | h1
      · exact Or.inr h1
      · exact Or.inl (List.mem_cons_of_mem _ h1)
    · rw [show dictSet (e1 :: t) k v = e1 :: dictSet t k v from by simp [dictSet, he]] at h
      rcases List.mem_cons.mp h with h1 | h1
      · exact Or.inl (h1 ▸ List.mem_cons_self _ _)
      · rcases ih h1 with h2 | h2
        · exact Or.inl (List.mem_cons_of_mem _ h2)
        · exact Or.inr h2

theorem dictLookup_none_of_keys {α β : Type} [DecidableEq α] {l : List (α × β)}
    {k : α} (h : ∀ e ∈ l, e.1 ≠ k) : dictLookup k l = Option.none := by
  induction l with
  | nil => rfl
  | cons e t ih =>
    show (if e.1 = k then Option.some e.2 else dictLookup k t) = Option.none
    rw [if_neg (h e (List.mem_cons_self _ _))]
    exact ih (fun e1 he1 => h e1 (List.mem_cons_of_mem _ he1))

theorem dictSet_of_absent {α β : Type} [DecidableEq α] {l : List (α × β)}
    {k : α} (v : β) (h : dictLookup k l = Option.none) :
    dictSet l k v = l ++ [(k, v)] := by
  induction l with
  | nil => rfl
  | cons e t ih =>
    have he : e.1 ≠ k := by
      intro hk
      simp [dictLookup, hk] at h
    have ht : dictLookup k t = Option.none := by
      simpa [dictLookup, he] using h
    simp [dictSet, he, ih ht]

theorem dictSet_dictSet_self {α β : Type} [DecidableEq α]
    (l : List (α × β)) (k : α) (v w : β) :
    dictSet (dictSet l k v) k w = dictSet l k w := by
  induction l with
  | nil => simp [dictSet]
  | cons e t ih =>
    by_cases he : e.1 = k
    · simp [dictSet, he]
    · simp [dictSet, he, ih]

/-! Helper lemmas about the checker-result classification. -/

theorem pyEqFalse_not_pyEqTrue {r : PyVal} (h : pyEqFalse r = true) :
    pyEqTrue r = false := by
  cases r with
  | bool b => cases b <;> simp_all [pyEqTrue, pyEqFalse]
  | int n =>
    have hn : n = 0 := by simpa [pyEqFalse] using h
    subst hn
    decide
  | str s => rfl
  | pyNone => rfl
  | other t => rfl

theorem checkerVerdict_ns {q : String} {s : Bool} {r : PyVal} {ns : Bool}
    {fb : String} (h : checkerVerdict q s r = Except.ok (ns, fb)) :
    ns = (s || pyEqTrue r) := by
  unfold checkerVerdict at h
  by_cases h1 : pyEqTrue r = true
  · rw [h1]
    rw [if_pos h1] at h
    injection h with h
    injection h with h2 h3
    simp [← h2]
  · have h1f : pyEqTrue r = false := by simpa using h1
    rw [if_neg h1] at h
    by_cases h2 : pyEqFalse r = true
    · rw [if_pos h2] at h
      injection h with h
      injection h with h3 h4
      simp [← h3, h1f]
    · rw [if_neg h2] at h
      cases r with
      | str s1 =>
        injection h with h
        injection h with h3 h4
        simp [← h3, h1f]
      | bool b => cases h
      | int n => cases h
      | pyNone => cases h
      | other t => cases h

theorem checkerVerdict_error_pyEqTrue {q : String} {s : Bool} {r : PyVal}
    {e : String} (h : checkerVerdict q s r = Except.error e) :
    pyEqTrue r = false := by
  by_cases h1 : pyEqTrue r = true
  · unfold checkerVerdict at h
    rw [if_pos h1] at h
    cases h
  · simpa using h1

theorem checkerVerdict_idem {q : String} {s : Bool} {r : PyVal} {ns : Bool}
    {fb : String} (h : checkerVerdict q s r = Except.ok (ns, fb)) :
    checkerVerdict q ns r = Except.ok (ns, fb) := by
  unfold checkerVerdict at h ⊢
  by_cases h1 : pyEqTrue r = true
  · rw [if_pos h1] at h ⊢
    exact h
  · rw [if_neg h1] at h ⊢
    by_cases h2 : pyEqFalse r = true
    · rw [if_pos h2] at h ⊢
      injection h with h
      injection h with h3 h4
      rw [← h3, ← h4]
    · rw [if_neg h2] at h ⊢
      cases r with
      | str s1 =>
        injection h with h
        injection h with h3 h4
        rw [← h3, ← h4]
      | bool b => cases h
      | int n => cases h
      | pyNone => cases h
      | other t => cases h

theorem solveOne_ok {p : Puzzle} {r : PyVal} {p' : Puzzle} {pr : Bool × String}
    (h : solveOne p r = Except.ok (p', pr)) :
    p' = { p with solved := pr.1 } ∧
    checkerVerdict p.question p.solved r = Except.ok pr := by
  unfold solveOne at h
  cases hv : checkerVerdict p.question p.solved r with
  | ok x =>
    obtain ⟨ns, fb⟩ := x
    rw [hv] at h
    simp only at h
    injection h with h
    injection h with h1 h2
    refine ⟨?_, ?_⟩
    · rw [← h1, ← h2]
    · rw [h2]
  | error e =>
    rw [hv] at h
    cases h

/-! Claim C1. -/

/-- C1 (amended): in solve_puzzle, a checker result equal to True under
Python equality (so bool True, but also e.g. the int 1) sets the solved
flag and yields the feedback Correct!; a result equal to False (bool False,
int 0) leaves the solved flag unchanged with feedback Incorrect!; a str
result leaves the flag unchanged and is returned verbatim; every remaining
result raises the fatal error whose message holds the puzzle question text
and the returned type name. -/
theorem C1_checker_result_classification (p : Puzzle) (r : PyVal) (s : String) :
    (r = PyVal.bool true →
      solveOne p r = Except.ok ({ p with solved := true }, (true, "Correct!"))) ∧
    (r = PyVal.bool false →
      solveOne p r = Except.ok (p, (p.solved, "Incorrect!"))) ∧
    (r = PyVal.str s → solveOne p r = Except.ok (p, (p.solved, s))) ∧
    (pyEqTrue r = true →
      solveOne p r = Except.ok ({ p with solved := true }, (true, "Correct!"))) ∧
    (pyEqFalse r = true →
      solveOne p r = Except.ok (p, (p.solved, "Incorrect!"))) ∧
    (pyEqTrue r = false → pyEqFalse r = false → PyVal.isStr r = false →
      solveOne p r = Except.error (checkerErrMsg p.question r)) := by
  refine ⟨?_, ?_, ?_, ?_, ?_, ?_⟩
  · intro hr; subst hr; rfl
  · intro hr; subst hr; rfl
  · intro hr; subst hr; rfl
  · intro h
    unfold solveOne checkerVerdict
    rw [if_pos h]
  · intro h
    have hT := pyEqFalse_not_pyEqTrue h
    unfold solveOne checkerVerdict
    rw [hT, h]
    simp
  · intro h1 h2 h3
    cases r with
    | bool b => cases b <;> simp_all [pyEqTrue, pyEqFalse]
    | str s1 => simp [PyVal.isStr] at h3
    | int n => simp [solveOne, checkerVerdict, h1, h2]
    | pyNone => rfl
    | other t => rfl

/-- C1 counterexample to the claim as stated: the int 1 is neither a bool
nor a str (its Python type name is int), yet solve_puzzle does not raise on
it — the comparison checker_result == True accepts it, the puzzle is marked
solved and the feedback is Correct!. -/
theorem C1_returns_int_counterexample :
    PyVal.isStr (PyVal.int 1) = false ∧
    PyVal.typeName (PyVal.int 1) = "int" ∧
    solveOne p0 (PyVal.int 1)
      = Except.ok ({ p0 with solved := true }, (true, "Correct!")) :=
  ⟨rfl, rfl, rfl⟩

/-- Witness for C1: each clause applied at a concrete input. -/
theorem C1_checker_result_classification_witness :
    solveOne p0 (PyVal.bool true)
      = Except.ok ({ p0 with solved := true }, (true, "Correct!")) ∧
    solveOne p0 (PyVal.bool false)
      = Except.ok (p0, (p0.solved, "Incorrect!")) ∧
    solveOne p0 (PyVal.str "Close, keep trying")
      = Except.ok (p0, (p0.solved, "Close, keep trying")) ∧
    solveOne p0 (PyVal.int 0)
      = Except.ok (p0, (p0.solved, "Incorrect!")) ∧
    solveOne p0 PyVal.pyNone
      = Except.error (checkerErrMsg p0.question PyVal.pyNone) :=
  ⟨(C1_checker_result_classification p0 (PyVal.bool true) "").1 rfl,
   (C1_checker_result_classification p0 (PyVal.bool false) "").2.1 rfl,
   (C1_checker_result_classification p0 (PyVal.str "Close, keep trying")
      "Close, keep trying").2.2.1 rfl,
   (C1_checker_result_classification p0 (PyVal.int 0) "").2.2.2.2.1 (by decide),
   (C1_checker_result_classification p0 PyVal.pyNone "").2.2.2.2.2
      (by decide) (by decide) (by decide)⟩

/-! Claim C3. -/

/-- C3: the code of src does not reject the unrecognized checker parameter
blah at construction time — Puzzle of tutorial.py stores the checker with
no validation, so the constructed puzzle exists (solved false, the
parameter list intact); the first rejection happens only inside
Tutorial.solve_puzzle, through an assert whose fixed message does not even
contain the offending name blah.  This contradicts the claim (and
test_puzzle.py, which expects a construction-time UnrecognizedParamsError
naming blah from the shared Puzzle class absent from src). -/
theorem C3_param_validation_only_at_solve_time :
    blahPuzzle.solved = false ∧
    blahPuzzle.checkerParams = ["blah"] ∧
    Tutorial.solve_puzzle blahPuzzle Option.none = Except.error hostAssertMsg ∧
    occursIn (String.toList "blah") (String.toList hostAssertMsg) = false :=
  ⟨rfl, rfl, rfl, by decide⟩

/-! Claim C5. -/

theorem solveOne_idem {p p' : Puzzle} {r : PyVal} {ns : Bool} {fb : String}
    (h : solveOne p r = Except.ok (p', (ns, fb))) :
    solveOne p' r = Except.ok (p', (ns, fb)) := by
  obtain ⟨hp', hv⟩ := solveOne_ok h
  have hv' := checkerVerdict_idem hv
  subst hp'
  simp only at hv' ⊢
  simp [solveOne, hv']

/-- C5: solve_puzzle is idempotent.  The checker is embedded as a pure
function of the flag and the student cwd, which captures determinism of the
checker relative to an unchanged filesystem; solve_puzzle does not touch
the shell pid, so the student cwd fed to the second call equals that of the
first.  A successful call re-run on the resulting state returns the same
(solved, feedback) pair and leaves the state fixed; the only change the
first call makes is rewriting the solved flag of that one puzzle to
p.solved || (checker result == True) — re-solving an already solved puzzle
at most re-sets the flag to true. -/
theorem C5_solve_idempotent (env : DockerEnv) (st st1 : DockerState)
    (pid : Nat) (flag : Option String) (p : Puzzle) (s : Bool) (fb : String)
    (hp : dictLookup pid st.puzzles = Option.some p)
    (h : TutorialDocker.solve_puzzle env st pid flag = (st1, Except.ok (s, fb))) :
    TutorialDocker.solve_puzzle env st1 pid flag = (st1, Except.ok (s, fb)) ∧
    st1.generators = st.generators ∧ st1.nextId = st.nextId ∧
    st1.shellPid = st.shellPid ∧
    st1.puzzles = dictSet st.puzzles pid { p with solved := s } ∧
    s = (p.solved || pyEqTrue (p.checker flag (TutorialDocker.student_cwd env st))) := by
  unfold TutorialDocker.solve_puzzle at h
  rw [hp] at h
  simp only at h
  cases hs : solveOne p (p.checker flag (TutorialDocker.student_cwd env st)) with
  | error e =>
    rw [hs] at h
    simp only at h
    injection h with h1 h2
    cases h2
  | ok pr =>
    obtain ⟨p', pair⟩ := pr
    obtain ⟨ns, fb0⟩ := pair
    rw [hs] at h
    simp only at h
    injection h with h1 h2
    injection h2 with h2
    injection h2 with h2a h2b
    subst h2a
    subst h2b
    subst h1
    obtain ⟨hp', hverd⟩ := solveOne_ok hs
    simp only at hp'
    have hsolved := checkerVerdict_ns hverd
    refine ⟨?_, rfl, rfl, rfl, ?_, hsolved⟩
    · unfold TutorialDocker.solve_puzzle
      rw [show dictLookup pid ({ st with
            puzzles := dictSet st.puzzles pid p' } : DockerState).puzzles
          = Option.some p' from dictLookup_dictSet_self _ _ _]
      rw [show TutorialDocker.student_cwd env ({ st with
            puzzles := dictSet st.puzzles pid p' } : DockerState)
          = TutorialDocker.student_cwd env st from rfl]
      simp only
      have hck : p'.checker = p.checker := by rw [hp']
      rw [hck]
      rw [solveOne_idem hs]
      simp only
      rw [show dictSet (dictSet st.puzzles pid p') pid p'
          = dictSet st.puzzles pid p' from dictSet_dictSet_self _ _ _ _]
    · rw [hp']

/-- Witness for C5: the sample puzzle solved twice in a row. -/
theorem C5_solve_idempotent_witness :
    TutorialDocker.solve_puzzle env0 stB 0 Option.none = (stB, Except.ok (true, "Correct!")) ∧
    stB.generators = stA.generators ∧ stB.nextId = stA.nextId ∧
    stB.shellPid = stA.shellPid ∧
    stB.puzzles = dictSet stA.puzzles 0 { p0 with solved := true } ∧
    true = (p0.solved || pyEqTrue (p0.checker Option.none (TutorialDocker.student_cwd env0 stA))) :=
  C5_solve_idempotent env0 stA stB 0 Option.none p0 true "Correct!" rfl rfl

/-! Helper lemmas about generate, connect_to_shell and the session state. -/

theorem generate_generators (gens : List String) (st : DockerState) :
    ((TutorialDocker.generate st gens).1).generators = st.generators := by
  induction gens generalizing st with
  | nil => rfl
  | cons g rest ih =>
    unfold TutorialDocker.generate
    cases hg : dictLookup g st.generators with
    | none => rfl
    | some spec => exact ih _

theorem generate_WFp (gens : List String) (st : DockerState) (h : WFp st) :
    WFp ((TutorialDocker.generate st gens).1) := by
  induction gens generalizing st with
  | nil => exact h
  | cons g rest ih =>
    unfold TutorialDocker.generate
    cases hg : dictLookup g st.generators with
    | none => exact h
    | some spec =>
      apply ih
      intro e he
      rcases mem_dictSet he with hmem | heq
      · exact Nat.lt_succ_of_lt (h e hmem)
      · rw [heq]
        exact Nat.lt_succ_self _

theorem generate_lookup_lt (gens : List String) (st : DockerState) (pid : Nat)
    (hlt : pid < st.nextId) :
    dictLookup pid ((TutorialDocker.generate st gens).1).puzzles
      = dictLookup pid st.puzzles := by
  induction gens generalizing st with
  | nil => rfl
  | cons g rest ih =>
    unfold TutorialDocker.generate
    cases hg : dictLookup g st.generators with
    | none => rfl
    | some spec =>
      rw [ih _ (Nat.lt_succ_of_lt hlt)]
      exact dictLookup_dictSet_ne _ _ _ _ (Nat.ne_of_lt hlt)

theorem generate_append (gens : List String) (st : DockerState) (h : WFp st) :
    ∃ t, ((TutorialDocker.generate st gens).1).puzzles = st.puzzles ++ t := by
  induction gens generalizing st with
  | nil => exact ⟨[], (List.append_nil _).symm⟩
  | cons g rest ih =>
    unfold TutorialDocker.generate
    cases hg : dictLookup g st.generators with
    | none => exact ⟨[], (List.append_nil _).symm⟩
    | some spec =>
      have hfresh : dictLookup st.nextId st.puzzles = Option.none :=
        dictLookup_none_of_keys (fun e he => Nat.ne_of_lt (h e he))
      have hwf1 : WFp { st with
          puzzles := dictSet st.puzzles st.nextId
            (Puzzle.init st.nextId spec.question spec.score
              spec.checkerParams spec.checker),
          nextId := st.nextId + 1 } := by
        intro e he
        rcases mem_dictSet he with hmem | heq
        · exact Nat.lt_succ_of_lt (h e hmem)
        · rw [heq]
          exact Nat.lt_succ_self _
      obtain ⟨t, ht⟩ := ih _ hwf1
      refine ⟨(st.nextId, Puzzle.init st.nextId spec.question spec.score
        spec.checkerParams spec.checker) :: t, ?_⟩
      rw [ht]
      simp only
      rw [dictSet_of_absent _ hfresh, List.append_assoc]
      rfl

theorem generate_ok_values (gens : List String) (st st' : DockerState)
    (r : List Puzzle)
    (h : TutorialDocker.generate st gens = (st', Except.ok r)) :
    r = st'.puzzles.map Prod.snd := by
  induction gens generalizing st with
  | nil =>
    unfold TutorialDocker.generate at h
    injection h with h1 h2
    injection h2 with h2
    rw [← h1, ← h2]
  | cons g rest ih =>
    unfold TutorialDocker.generate at h
    cases hg : dictLookup g st.generators with
    | none =>
      rw [hg] at h
      simp only at h
      injection h with h1 h2
      cases h2
    | some spec =>
      rw [hg] at h
      simp only at h
      exact ih _ h

theorem connect_frame (env : DockerEnv) (st : DockerState) (name : String) :
    ((TutorialDocker.connect_to_shell env st name).1).generators = st.generators ∧
    ((TutorialDocker.connect_to_shell env st name).1).puzzles = st.puzzles ∧
    ((TutorialDocker.connect_to_shell env st name).1).nextId = st.nextId := by
  unfold TutorialDocker.connect_to_shell
  cases retryCall (env.attempts name) 0 retryTries with
  | none => exact ⟨rfl, rfl, rfl⟩
  | some pids =>
    cases pids with
    | nil => exact ⟨rfl, rfl, rfl⟩
    | cons a l =>
      cases l with
      | nil => exact ⟨rfl, rfl, rfl⟩
      | cons b t => exact ⟨rfl, rfl, rfl⟩

theorem solve_frame (env : DockerEnv) (st : DockerState) (pid : Nat)
    (flag : Option String) :
    ((TutorialDocker.solve_puzzle env st pid flag).1).generators = st.generators ∧
    ((TutorialDocker.solve_puzzle env st pid flag).1).nextId = st.nextId := by
  unfold TutorialDocker.solve_puzzle
  cases dictLookup pid st.puzzles with
  | none => exact ⟨rfl, rfl⟩
  | some puzzle =>
    simp only
    cases solveOne puzzle (puzzle.checker flag (TutorialDocker.student_cwd env st)) with
    | ok pr => exact ⟨rfl, rfl⟩
    | error e => exact ⟨rfl, rfl⟩

theorem solve_WFp (env : DockerEnv) (st : DockerState) (pid : Nat)
    (flag : Option String) (h : WFp st) :
    WFp ((TutorialDocker.solve_puzzle env st pid flag).1) := by
  unfold TutorialDocker.solve_puzzle
  cases hl : dictLookup pid st.puzzles with
  | none => exact h
  | some puzzle =>
    simp only
    cases solveOne puzzle (puzzle.checker flag (TutorialDocker.student_cwd env st)) with
    | error e => exact h
    | ok pr =>
      obtain ⟨p', pair⟩ := pr
      intro e he
      rcases mem_dictSet he with hmem | heq
      · exact h e hmem
      · rw [heq]
        exact h (pid, puzzle) (mem_of_dictLookup hl)

theorem dockerStep_WFp (env : DockerEnv) (st : DockerState) (m : DockerMsg)
    (h : WFp st) : WFp (dockerStep env st m) := by
  cases m with
  | generate gens => exact generate_WFp gens st h
  | solve pid flag => exact solve_WFp env st pid flag h
  | connectToShell name =>
    intro e he
    rw [show (dockerStep env st (DockerMsg.connectToShell name)).puzzles
        = st.puzzles from (connect_frame env st name).2.1] at he
    rw [show (dockerStep env st (DockerMsg.connectToShell name)).nextId
        = st.nextId from (connect_frame env st name).2.2]
    exact h e he
  | getStudentCwd => exact h
  | getFiles folder => exact h

theorem dockerRun_WFp (env : DockerEnv) (ops : List DockerMsg) :
    ∀ st, WFp st → WFp (dockerRun env st ops) := by
  induction ops with
  | nil => exact fun st h => h
  | cons m rest ih => exact fun st h => ih _ (dockerStep_WFp env st m h)

theorem solveOne_error_not_true {p : Puzzle} {r : PyVal} {e : String}
    (h : solveOne p r = Except.error e) : pyEqTrue r = false := by
  unfold solveOne at h
  cases hv : checkerVerdict p.question p.solved r with
  | ok x => rw [hv] at h; obtain ⟨a, b⟩ := x; simp only at h; cases h
  | error e1 => exact checkerVerdict_error_pyEqTrue hv

/-- The solved flag of a stored puzzle across one handled message: it
becomes the old flag or-ed with the success of a solve of that very puzzle;
in particular it starts anew only through a successful solve and never
falls back from true to false. -/
theorem dockerStep_solved (env : DockerEnv) (st : DockerState) (m : DockerMsg)
    (pid : Nat) (p p' : Puzzle) (hwf : WFp st)
    (h : dictLookup pid st.puzzles = Option.some p)
    (h' : dictLookup pid (dockerStep env st m).puzzles = Option.some p') :
    p'.solved = (p.solved || solveSuccessFor env st m pid p) := by
  cases m with
  | generate gens =>
    have hlt : pid < st.nextId := hwf (pid, p) (mem_of_dictLookup h)
    rw [show dockerStep env st (DockerMsg.generate gens)
        = (TutorialDocker.generate st gens).1 from rfl] at h'
    rw [generate_lookup_lt gens st pid hlt, h] at h'
    injection h' with h'
    rw [← h']
    simp [solveSuccessFor]
  | connectToShell name =>
    rw [show dockerStep env st (DockerMsg.connectToShell name)
        = (TutorialDocker.connect_to_shell env st name).1 from rfl,
      (connect_frame env st name).2.1, h] at h'
    injection h' with h'
    rw [← h']
    simp [solveSuccessFor]
  | getStudentCwd =>
    rw [show dockerStep env st DockerMsg.getStudentCwd = st from rfl, h] at h'
    injection h' with h'
    rw [← h']
    simp [solveSuccessFor]
  | getFiles folder =>
    rw [show dockerStep env st (DockerMsg.getFiles folder) = st from rfl, h] at h'
    injection h' with h'
    rw [← h']
    simp [solveSuccessFor]
  | solve pid' flag =>
    rw [show dockerStep env st (DockerMsg.solve pid' flag)
        = (TutorialDocker.solve_puzzle env st pid' flag).1 from rfl] at h'
    unfold TutorialDocker.solve_puzzle at h'
    by_cases hpp : pid' = pid
    · subst hpp
      rw [h] at h'
      simp only at h'
      cases hs : solveOne p (p.checker flag (TutorialDocker.student_cwd env st)) with
      | error e =>
        rw [hs] at h'
        simp only at h'
        rw [h] at h'
        injection h' with h'
        rw [← h']
        simp [solveSuccessFor, solveOne_error_not_true hs]
      | ok pr =>
        obtain ⟨q', ns, fb⟩ := pr
        rw [hs] at h'
        simp only at h'
        rw [dictLookup_dictSet_self] at h'
        injection h' with h'
        obtain ⟨hq', hverd⟩ := solveOne_ok hs
        rw [← h', hq']
        simp only [solveSuccessFor]
        rw [checkerVerdict_ns hverd]
        simp
    · cases hl' : dictLookup pid' st.puzzles with
      | none =>
        rw [hl'] at h'
        simp only at h'
        rw [h] at h'
        injection h' with h'
        rw [← h']
        have hb : (pid' == pid) = false := by
          simp [hpp]
        simp [solveSuccessFor, hb]
      | some q =>
        rw [hl'] at h'
        simp only at h'
        cases hs : solveOne q (q.checker flag (TutorialDocker.student_cwd env st)) with
        | error e =>
          rw [hs] at h'
          simp only at h'
          rw [h] at h'
          injection h' with h'
          rw [← h']
          have hb : (pid' == pid) = false := by
            simp [hpp]
          simp [solveSuccessFor, hb]
        | ok pr =>
          obtain ⟨q', pair⟩ := pr
          rw [hs] at h'
          simp only at h'
          rw [dictLookup_dictSet_ne _ _ _ _ (fun e => hpp e.symm), h] at h'
          injection h' with h'
          rw [← h']
          have hb : (pid' == pid) = false := by
            simp [hpp]
          simp [solveSuccessFor, hb]

/-! Claim C2. -/

/-- C2: across any reachable sandbox session state, the solved flag of a
stored puzzle starts false at construction (Puzzle.init), becomes the old
value or-ed with the success of a solve of that very puzzle on each handled
message — so it turns from false to true only inside solve_puzzle when the
checker evaluation passes the == True test, and no sandbox operation turns
it from true back to false (an undo/restart lives on the host and replaces
whole states rather than stepping this machine). -/
theorem C2_solved_flag_invariant (env : DockerEnv)
    (gens : List (String × PuzzleSpecArg)) (ops : List DockerMsg)
    (m : DockerMsg) (pid : Nat) (p p' : Puzzle) (id0 : Nat) (q0 : String)
    (sc0 : Int) (ps0 : List String)
    (c0 : Option String → Option String → PyVal)
    (h : dictLookup pid (dockerRun env (initState gens) ops).puzzles
        = Option.some p)
    (h' : dictLookup pid
        (dockerStep env (dockerRun env (initState gens) ops) m).puzzles
        = Option.some p') :
    (Puzzle.init id0 q0 sc0 ps0 c0).solved = false ∧
    p'.solved = (p.solved ||
      solveSuccessFor env (dockerRun env (initState gens) ops) m pid p) :=
  ⟨rfl, dockerStep_solved env (dockerRun env (initState gens) ops) m pid p p'
    (dockerRun_WFp env ops (initState gens)
      (fun e he => absurd he (List.not_mem_nil e)))
    h h'⟩

/-- Witness for C2: generating then solving the sample puzzle. -/
theorem C2_solved_flag_invariant_witness :
    (Puzzle.init 0 spec0.question spec0.score spec0.checkerParams
      spec0.checker).solved = false ∧
    p1.solved = (p0.solved ||
      solveSuccessFor env0 (dockerRun env0 (initState gens0)
        [DockerMsg.generate ["puzzles.move"]]) (DockerMsg.solve 0 Option.none)
        0 p0) :=
  C2_solved_flag_invariant env0 gens0 [DockerMsg.generate ["puzzles.move"]]
    (DockerMsg.solve 0 Option.none) 0 p0 p1 0 spec0.question spec0.score
    spec0.checkerParams spec0.checker rfl rfl

/-! Claim C6. -/

/-- C6 counterexample to the claim as stated: a GENERATE request naming the
known generator puzzles.move and then the unknown id puzzles.bogus raises
the unknown-generator error, but only after the first generator has already
executed and stored its puzzle (the returned state holds one puzzle) — the
check does not precede all generation work. -/
theorem C6_unknown_generator_counterexample :
    (TutorialDocker.generate (initState gens0)
        ["puzzles.move", "puzzles.bogus"]).2
      = Except.error "Unknown puzzle generator puzzles.bogus." ∧
    ((TutorialDocker.generate (initState gens0)
        ["puzzles.move", "puzzles.bogus"]).1).puzzles.length = 1 :=
  ⟨rfl, rfl⟩

/-- C6 (amended): the membership of each generator id is checked one id at
a time, immediately before running that generator: a list made of known
ids followed by an unknown one yields the unknown-generator error for the
unknown id, with every generator before it already executed — exactly one
stored puzzle per known id preceding the failure. -/
theorem C6_unknown_generator_per_item (st : DockerState)
    (pre rest : List String) (bad : String) (hwf : WFp st)
    (hpre : ∀ g ∈ pre, (dictLookup g st.generators).isSome = true)
    (hbad : dictLookup bad st.generators = Option.none) :
    (TutorialDocker.generate st (pre ++ bad :: rest)).2
      = Except.error ("Unknown puzzle generator " ++ bad ++ ".") ∧
    ((TutorialDocker.generate st (pre ++ bad :: rest)).1).puzzles.length
      = st.puzzles.length + pre.length := by
  induction pre generalizing st with
  | nil =>
    rw [List.nil_append]
    unfold TutorialDocker.generate
    rw [hbad]
    exact ⟨rfl, rfl⟩
  | cons g pre ih =>
    have hg := hpre g (List.mem_cons_self g pre)
    obtain ⟨spec, hspec⟩ := Option.isSome_iff_exists.mp hg
    rw [List.cons_append]
    unfold TutorialDocker.generate
    rw [hspec]
    simp only
    have hfresh : dictLookup st.nextId st.puzzles = Option.none :=
      dictLookup_none_of_keys (fun e he => Nat.ne_of_lt (hwf e he))
    have hwf1 : WFp { st with
        puzzles := dictSet st.puzzles st.nextId
          (Puzzle.init st.nextId spec.question spec.score
            spec.checkerParams spec.checker),
        nextId := st.nextId + 1 } := by
      intro e he
      rcases mem_dictSet he with hmem | heq
      · exact Nat.lt_succ_of_lt (hwf e hmem)
      · rw [heq]
        exact Nat.lt_succ_self _
    have hpre1 : ∀ g1 ∈ pre, (dictLookup g1 ({ st with
        puzzles := dictSet st.puzzles st.nextId
          (Puzzle.init st.nextId spec.question spec.score
            spec.checkerParams spec.checker),
        nextId := st.nextId + 1 } : DockerState).generators).isSome = true :=
      fun g1 hg1 => hpre g1 (List.mem_cons_of_mem _ hg1)
    obtain ⟨e1, e2⟩ := ih _ hwf1 hpre1 hbad
    refine ⟨e1, ?_⟩
    rw [e2]
    simp only
    rw [dictSet_of_absent _ hfresh, List.length_append]
    simp [List.length_cons]
    omega

/-- Witness for C6: one known id before the unknown one. -/
theorem C6_unknown_generator_per_item_witness :
    (TutorialDocker.generate (initState gens0)
        (["puzzles.move"] ++ "puzzles.bogus" :: [])).2
      = Except.error ("Unknown puzzle generator " ++ "puzzles.bogus" ++ ".") ∧
    ((TutorialDocker.generate (initState gens0)
        (["puzzles.move"] ++ "puzzles.bogus" :: [])).1).puzzles.length
      = (initState gens0).puzzles.length + (["puzzles.move"] : List String).length :=
  C6_unknown_generator_per_item (initState gens0) ["puzzles.move"] []
    "puzzles.bogus" (fun e he => absurd he (List.not_mem_nil e))
    (by decide) rfl

/-! Claim C10. -/

/-- C10: generate returns the accumulated contents of the puzzles dict, not
only the puzzles of the current call — a successful call returns exactly
the values of the resulting puzzles dict, and the list returned by an
earlier call is a prefix of the list returned by a later one. -/
theorem C10_generate_returns_all (st st1 st2 : DockerState)
    (g1 g2 : List String) (r1 r2 : List Puzzle) (hwf : WFp st)
    (h1 : TutorialDocker.generate st g1 = (st1, Except.ok r1))
    (h2 : TutorialDocker.generate st1 g2 = (st2, Except.ok r2)) :
    r1 = st1.puzzles.map Prod.snd ∧ r2 = st2.puzzles.map Prod.snd ∧
    r1 = List.take r1.length r2 := by
  have e1 : r1 = st1.puzzles.map Prod.snd := generate_ok_values g1 st st1 r1 h1
  have e2 : r2 = st2.puzzles.map Prod.snd := generate_ok_values g2 st1 st2 r2 h2
  have hw1 : WFp st1 := by
    have := generate_WFp g1 st hwf
    rw [h1] at this
    exact this
  obtain ⟨t, ht⟩ := generate_append g2 st1 hw1
  rw [h2] at ht
  refine ⟨e1, e2, ?_⟩
  rw [e1, e2, ht, List.map_append]
  exact (List.take_left _ _).symm

/-- Witness for C10: two GENERATE requests for the sample generator; the
second returns the puzzle of the first followed by the new one. -/
theorem C10_generate_returns_all_witness :
    [p0] = stA.puzzles.map Prod.snd ∧
    [p0, pB] = stC.puzzles.map Prod.snd ∧
    [p0] = List.take (List.length [p0]) [p0, pB] :=
  C10_generate_returns_all (initState gens0) stA stC ["puzzles.move"]
    ["puzzles.move"] [p0] [p0, pB]
    (fun e he => absurd he (List.not_mem_nil e)) rfl rfl

/-! Claim C7. -/

theorem retryCall_none (attempts : Nat → List Nat) :
    ∀ (t s : Nat), (∀ k, k < t → attempts (s + k) = []) →
      retryCall attempts s t = Option.none := by
  intro t
  induction t with
  | zero => intro s h; rfl
  | succ t ih =>
    intro s h
    have h0 : attempts s = [] := by simpa using h 0 (Nat.succ_pos t)
    unfold retryCall
    rw [h0]
    simp only [List.isEmpty_nil, if_true]
    apply ih
    intro k hk
    have he : s + (k + 1) = s + 1 + k := by omega
    have := h (k + 1) (by omega)
    rw [he] at this
    exact this

theorem retryCall_hit (attempts : Nat → List Nat) :
    ∀ (t s j : Nat), j < t → (∀ k, k < j → attempts (s + k) = []) →
      attempts (s + j) ≠ [] →
      retryCall attempts s t = Option.some (attempts (s + j)) := by
  intro t
  induction t with
  | zero => intro s j hj; omega
  | succ t ih =>
    intro s j hj hpre hne
    cases j with
    | zero =>
      rw [Nat.add_zero] at hne
      have h0 : (attempts s).isEmpty = false := by
        cases hA : attempts s with
        | nil => exact absurd hA hne
        | cons a l => rfl
      unfold retryCall
      rw [h0]
      simp only [Bool.false_eq_true, if_false]
      rw [Nat.add_zero]
    | succ j' =>
      have h0 : attempts s = [] := by simpa using hpre 0 (Nat.succ_pos j')
      unfold retryCall
      rw [h0]
      simp only [List.isEmpty_nil, if_true]
      have hpre1 : ∀ k, k < j' → attempts (s + 1 + k) = [] := by
        intro k hk
        have he : s + (k + 1) = s + 1 + k := by omega
        have := hpre (k + 1) (by omega)
        rw [he] at this
        exact this
      have hne1 : attempts (s + 1 + j') ≠ [] := by
        have he : s + (j' + 1) = s + 1 + j' := by omega
        rw [he] at hne
        exact hne
      have := ih (s + 1) j' (by omega) hpre1 hne1
      rw [this]
      have he : s + (j' + 1) = s + 1 + j' := by omega
      rw [he]

/-- C7: connect_to_shell retries pidof a fixed bounded number of times (40
attempts, a fixed 0.2 second sub-second delay between them); if every
attempt fails it raises the no-process error; if the first successful
attempt yields exactly one pid, that pid is stored as the shell pid and
returned; if it yields more than one pid, the distinct ambiguous-match
error is raised.  The three behaviours are shown on three environments. -/
theorem C7_connect_to_shell (env1 env2 env3 : DockerEnv) (st : DockerState)
    (name : String) (j2 j3 p q : Nat) (rest : List Nat)
    (h1 : ∀ k, k < retryTries → env1.attempts name k = [])
    (h2a : j2 < retryTries) (h2b : ∀ k, k < j2 → env2.attempts name k = [])
    (h2c : env2.attempts name j2 = [p])
    (h3a : j3 < retryTries) (h3b : ∀ k, k < j3 → env3.attempts name k = [])
    (h3c : env3.attempts name j3 = q :: rest) (h3d : rest ≠ []) :
    TutorialDocker.connect_to_shell env1 st name
      = (st, Except.error ("No process named \"" ++ name ++ "\" found.")) ∧
    TutorialDocker.connect_to_shell env2 st name
      = ({ st with shellPid := Option.some p }, Except.ok p) ∧
    TutorialDocker.connect_to_shell env3 st name
      = (st, Except.error ("Multiple processes named \"" ++ name ++ "\" found.")) ∧
    10 ≤ retryTries ∧ retryTries ≤ 99 ∧ retryDelayMilliseconds < 1000 := by
  refine ⟨?_, ?_, ?_, by decide, by decide, by decide⟩
  · unfold TutorialDocker.connect_to_shell
    rw [retryCall_none (env1.attempts name) retryTries 0
      (fun k hk => by simpa using h1 k hk)]
  · unfold TutorialDocker.connect_to_shell
    have hh := retryCall_hit (env2.attempts name) retryTries 0 j2 h2a
      (fun k hk => by simpa using h2b k hk)
      (by rw [Nat.zero_add, h2c]; simp)
    rw [Nat.zero_add] at hh
    rw [hh, h2c]
  · unfold TutorialDocker.connect_to_shell
    have hh := retryCall_hit (env3.attempts name) retryTries 0 j3 h3a
      (fun k hk => by simpa using h3b k hk)
      (by simp [h3c])
    rw [Nat.zero_add] at hh
    rw [hh, h3c]
    cases rest with
    | nil => exact absurd rfl h3d
    | cons b t => rfl

/-- Witness for C7: the three environments defined above, with the shell
found at the fourth attempt in the second one. -/
theorem C7_connect_to_shell_witness :
    TutorialDocker.connect_to_shell env0 stEmpty "bash"
      = (stEmpty, Except.error ("No process named \"" ++ "bash" ++ "\" found.")) ∧
    TutorialDocker.connect_to_shell envOne stEmpty "bash"
      = ({ stEmpty with shellPid := Option.some 7 }, Except.ok 7) ∧
    TutorialDocker.connect_to_shell envMany stEmpty "bash"
      = (stEmpty, Except.error ("Multiple processes named \"" ++ "bash" ++ "\" found.")) ∧
    10 ≤ retryTries ∧ retryTries ≤ 99 ∧ retryDelayMilliseconds < 1000 :=
  C7_connect_to_shell env0 envOne envMany stEmpty "bash" 3 0 7 5 [6]
    (by decide) (by decide) (by decide) (by decide) (by decide) (by decide)
    rfl (by decide)

/-! Claim C8. -/

/-- C8 counterexample to the claim as stated: with no shell connected the
direct student_cwd call returns None — not the value "unknown" — and the
GET_STUDENT_CWD message handler, which wraps the result in PurePosixPath,
raises a TypeError instead of returning a value. -/
theorem C8_unknown_counterexample :
    TutorialDocker.student_cwd env0 stEmpty = Option.none ∧
    TutorialDocker.student_cwd env0 stEmpty ≠ Option.some "unknown" ∧
    getStudentCwdAction env0 stEmpty
      = Except.error "TypeError: expected str, bytes or os.PathLike object, not NoneType" :=
  ⟨rfl, by decide, rfl⟩

/-- C8 (amended): if no shell has been connected yet, student_cwd returns
None (as its docstring states), and the GET_STUDENT_CWD handler of the IPC
loop fails with a TypeError from PurePosixPath(None) rather than returning
"unknown". -/
theorem C8_student_cwd_none (env : DockerEnv) (st : DockerState)
    (h : st.shellPid = Option.none) :
    TutorialDocker.student_cwd env st = Option.none ∧
    getStudentCwdAction env st
      = Except.error "TypeError: expected str, bytes or os.PathLike object, not NoneType" := by
  have h1 : TutorialDocker.student_cwd env st = Option.none := by
    unfold TutorialDocker.student_cwd
    rw [h]
  refine ⟨h1, ?_⟩
  unfold getStudentCwdAction
  rw [h1]
  rfl

/-- Witness for C8: the freshly constructed state has no shell pid. -/
theorem C8_student_cwd_none_witness :
    TutorialDocker.student_cwd env0 stEmpty = Option.none ∧
    getStudentCwdAction env0 stEmpty
      = Except.error "TypeError: expected str, bytes or os.PathLike object, not NoneType" :=
  C8_student_cwd_none env0 stEmpty rfl

/-! Claim C9. -/

theorem undoApply_enabled (m : UndoManager) (op : UndoOp) :
    (undoApply m op).enabled = m.enabled := by
  cases op with
  | commitOp e =>
    show (commit m e).enabled = m.enabled
    unfold commit
    split <;> rfl
  | undoOp =>
    show (undo m).enabled = m.enabled
    unfold undo
    split <;> rfl
  | restartOp => rfl

theorem undoRun_enabled (ops : List UndoOp) :
    ∀ m : UndoManager, (undoRun m ops).enabled = m.enabled := by
  induction ops with
  | nil => exact fun m => rfl
  | cons op rest ih =>
    intro m
    exact (ih (undoApply m op)).trans (undoApply_enabled m op)

theorem undoApply_len_ge_one (m : UndoManager) (op : UndoOp)
    (h : 1 ≤ m.stack.length) : 1 ≤ (undoApply m op).stack.length := by
  cases op with
  | commitOp e =>
    show 1 ≤ (commit m e).stack.length
    unfold commit
    split
    · simp
    · exact h
  | undoOp =>
    show 1 ≤ (undo m).stack.length
    unfold undo
    split
    · rename_i hc
      unfold canUndo at hc
      have hlt : 1 < m.stack.length := of_decide_eq_true hc
      simp only [List.length_tail]
      omega
    · exact h
  | restartOp =>
    show 1 ≤ (restart m).stack.length
    unfold restart
    cases hL : m.stack.getLast? with
    | some e => simp
    | none =>
      rw [List.getLast?_eq_none_iff] at hL
      rw [hL] at h
      simp at h

theorem undoRun_len_ge_one (ops : List UndoOp) :
    ∀ m : UndoManager, 1 ≤ m.stack.length →
      1 ≤ (undoRun m ops).stack.length := by
  induction ops with
  | nil => exact fun m h => h
  | cons op rest ih =>
    exact fun m h => ih _ (undoApply_len_ge_one m op h)

theorem undo_bottom (m : UndoManager) (h : m.stack.length = 1) :
    undo m = m ∧ canUndo m = false := by
  have hc : canUndo m = false := by
    unfold canUndo
    rw [h]
    rfl
  constructor
  · unfold undo
    rw [hc]
    simp
  · exact hc

/-- C9: once undo is enabled and one commit has happened, every later state
of the manager keeps at least one stack entry — the bottom entry is never
popped; and at the bottom (stack length one) undo is a no-op however often
it is repeated, with canUndo false. -/
theorem C9_undo_stack_bottom (m0 : UndoManager) (e : UndoEntry)
    (ops1 ops2 : List UndoOp) (mB : UndoManager) (k : Nat)
    (hen : m0.enabled = true) (hB : mB.stack.length = 1) :
    1 ≤ (undoRun m0 (ops1 ++ UndoOp.commitOp e :: ops2)).stack.length ∧
    undo^[k] mB = mB ∧ canUndo mB = false := by
  refine ⟨?_, Function.iterate_fixed (undo_bottom mB hB).1 k,
    (undo_bottom mB hB).2⟩
  rw [show undoRun m0 (ops1 ++ UndoOp.commitOp e :: ops2)
      = undoRun (undoApply (undoRun m0 ops1) (UndoOp.commitOp e)) ops2 from by
    unfold undoRun
    rw [List.foldl_append, List.foldl_cons]]
  apply undoRun_len_ge_one
  have hen1 : (undoRun m0 ops1).enabled = true := by
    rw [undoRun_enabled ops1 m0, hen]
  show 1 ≤ (commit (undoRun m0 ops1) e).stack.length
  unfold commit
  rw [hen1]
  simp

/-- Witness for C9: a commit on an enabled empty manager followed by two
undos, and three undos at a one-entry stack. -/
theorem C9_undo_stack_bottom_witness :
    1 ≤ (undoRun undoM0 ([] ++ UndoOp.commitOp e0 ::
      [UndoOp.undoOp, UndoOp.undoOp])).stack.length ∧
    undo^[3] undoMB = undoMB ∧ canUndo undoMB = false :=
  C9_undo_stack_bottom undoM0 e0 [] [UndoOp.undoOp, UndoOp.undoOp] undoMB 3
    rfl rfl

/-! Claim C4: list-indexing lemmas. -/

theorem get?_lt {α : Type} {l : List α} {i : Nat} {v : α}
    (h : l.get? i = Option.some v) : i < l.length := by
  induction l generalizing i with
  | nil => cases h
  | cons a t ih =>
    cases i with
    | zero => simp
    | succ j =>
      have := ih (i := j) h
      simp only [List.length_cons]
      omega

theorem get?_set_self {α : Type} (l : List α) (i : Nat) (v : α)
    (h : i < l.length) : (l.set i v).get? i = Option.some v := by
  induction l generalizing i with
  | nil => simp at h
  | cons a t ih =>
    cases i with
    | zero => rfl
    | succ j =>
      have hj : j < t.length := by
        simp only [List.length_cons] at h
        omega
      exact ih j hj

theorem get?_set_ne {α : Type} (l : List α) (i j : Nat) (v : α) (h : i ≠ j) :
    (l.set i v).get? j = l.get? j := by
  induction l generalizing i j with
  | nil => simp
  | cons a t ih =>
    cases i with
    | zero =>
      cases j with
      | zero => exact absurd rfl h
      | succ j1 => rfl
    | succ i1 =>
      cases j with
      | zero => rfl
      | succ j1 => exact ih i1 j1 (fun e => h (by rw [e]))

theorem get?_enumFrom_map {α : Type} (φ : Nat × α → α) (l : List α) :
    ∀ (k j : Nat), ((List.enumFrom k l).map φ).get? j
      = (l.get? j).map (fun a => φ (k + j, a)) := by
  induction l with
  | nil => intro k j; simp
  | cons a t ih =>
    intro k j
    cases j with
    | zero => simp [List.enumFrom]
    | succ j1 =>
      have he : k + (j1 + 1) = (k + 1) + j1 := by omega
      show ((List.enumFrom (k + 1) t).map φ).get? j1 = _
      rw [ih (k + 1) j1, he]
      rfl

theorem get?_enum_map {α : Type} (φ : Nat × α → α) (l : List α) (j : Nat) :
    ((l.enum).map φ).get? j = (l.get? j).map (fun a => φ (j, a)) := by
  have := get?_enumFrom_map φ l 0 j
  simpa [List.enum] using this

/-! Claim C4: facts about the fill operations. -/

theorem fillRoot_parent (gens : String → PuzzleSpecArg) (j : Nat)
    (n : TreeNode) : (fillRoot gens (j, n)).parent = n.parent := by
  unfold fillRoot
  split <;> rfl

theorem fillRoot_of_parent (gens : String → PuzzleSpecArg) (j : Nat)
    (n : TreeNode) (i : Nat) (h : n.parent = Option.some i) :
    fillRoot gens (j, n) = n := by
  unfold fillRoot
  simp only
  rw [h]
  simp

theorem fillRoot_keepSome (gens : String → PuzzleSpecArg) (j : Nat)
    (n : TreeNode) (p : Puzzle) (h : n.puzzle = Option.some p) :
    fillRoot gens (j, n) = n := by
  unfold fillRoot
  simp only
  rw [h]
  simp

theorem fillChild_parent (gens : String → PuzzleSpecArg) (i j : Nat)
    (n : TreeNode) : (fillChild gens i (j, n)).parent = n.parent := by
  unfold fillChild
  split <;> rfl

theorem fillChild_keepSome (gens : String → PuzzleSpecArg) (i j : Nat)
    (n : TreeNode) (p : Puzzle) (h : n.puzzle = Option.some p) :
    fillChild gens i (j, n) = n := by
  unfold fillChild
  simp only
  rw [h]
  simp

theorem fillChild_isSome (gens : String → PuzzleSpecArg) (i j : Nat)
    (n : TreeNode) (h : n.parent = Option.some i) :
    ((fillChild gens i (j, n)).puzzle).isSome = true := by
  unfold fillChild
  simp only
  rw [h]
  cases hp : n.puzzle with
  | none => simp
  | some q => simp [hp]

theorem fillChild_of_other (gens : String → PuzzleSpecArg) (i i1 j : Nat)
    (n : TreeNode) (h : n.parent = Option.some i1) (hne : i1 ≠ i) :
    fillChild gens i (j, n) = n := by
  unfold fillChild
  simp only
  rw [h]
  have hb : ((Option.some i1 : Option Nat) == Option.some i) = false := by
    simp [hne]
  rw [hb]
  simp

theorem mkGenerated_unsolved (gens : String → PuzzleSpecArg) (i : Nat)
    (g : String) : (mkGenerated gens i g).solved = false := rfl

theorem set_of_get? {α : Type} (l : List α) (i : Nat) (v : α)
    (h : l.get? i = Option.some v) : l.set i v = l := by
  induction l generalizing i with
  | nil => rfl
  | cons a t ih =>
    cases i with
    | zero =>
      injection h with h
      show v :: t = a :: t
      rw [← h]
    | succ j =>
      show a :: t.set j v = a :: t
      rw [ih j h]

/-- Preservation of the two forest invariants by generateRoots. -/
theorem fillRoots_inv (gens : String → PuzzleSpecArg) (f : List TreeNode)
    (h1 : depInv f) (h2 : depFull f) :
    depInv ((f.enum).map (fillRoot gens)) ∧
    depFull ((f.enum).map (fillRoot gens)) := by
  constructor
  · intro j n i hj hpar hsome
    rw [get?_enum_map] at hj
    cases hf : f.get? j with
    | none => rw [hf] at hj; cases hj
    | some n0 =>
      rw [hf] at hj
      simp only [Option.map_some'] at hj
      injection hj with hj
      have hpar0 : n0.parent = Option.some i := by
        rw [← fillRoot_parent gens j n0, hj]
        exact hpar
      have hn0 : fillRoot gens (j, n0) = n0 :=
        fillRoot_of_parent gens j n0 i hpar0
      have hsome0 : n0.puzzle.isSome = true := by
        rw [← hn0, hj]
        exact hsome
      obtain ⟨mm, pp, hm, hp, hsol⟩ := h1 j n0 i hf hpar0 hsome0
      refine ⟨mm, pp, ?_, hp, hsol⟩
      rw [get?_enum_map, hm]
      simp only [Option.map_some']
      rw [fillRoot_keepSome gens i mm pp hp]
  · intro i hps j n hj hpar
    obtain ⟨m', p', hm', hp', hs'⟩ := hps
    rw [get?_enum_map] at hm'
    cases hfi : f.get? i with
    | none => rw [hfi] at hm'; cases hm'
    | some m0 =>
      rw [hfi] at hm'
      simp only [Option.map_some'] at hm'
      injection hm' with hm'
      have hpsf : parentSolved f i := by
        cases hq0 : m0.puzzle with
        | some q0 =>
          rw [fillRoot_keepSome gens i m0 q0 hq0] at hm'
          refine ⟨m0, p', hfi, ?_, hs'⟩
          rw [hm']
          exact hp'
        | none =>
          by_cases hpn : m0.parent.isNone = true
          · have hfill : fillRoot gens (i, m0) = { m0 with
                puzzle := Option.some (mkGenerated gens i m0.generator) } := by
              simp [fillRoot, hpn, hq0]
            rw [hfill] at hm'
            rw [← hm'] at hp'
            simp only at hp'
            injection hp' with hp'
            rw [← hp', mkGenerated_unsolved] at hs'
            cases hs'
          · have hex : ∃ i1, m0.parent = Option.some i1 := by
              cases hpp : m0.parent with
              | none => rw [hpp] at hpn; simp at hpn
              | some i1 => exact ⟨i1, rfl⟩
            obtain ⟨i1, hi1⟩ := hex
            rw [fillRoot_of_parent gens i m0 i1 hi1] at hm'
            rw [← hm', hq0] at hp'
            cases hp'
      rw [get?_enum_map] at hj
      cases hfj : f.get? j with
      | none => rw [hfj] at hj; cases hj
      | some nj =>
        rw [hfj] at hj
        simp only [Option.map_some'] at hj
        injection hj with hj
        have hparj : nj.parent = Option.some i := by
          rw [← fillRoot_parent gens j nj, hj]
          exact hpar
        have hjs : nj.puzzle.isSome = true := h2 i hpsf j nj hfj hparj
        obtain ⟨qj, hqj⟩ := Option.isSome_iff_exists.mp hjs
        rw [← hj, fillRoot_keepSome gens j nj qj hqj]
        exact hjs

/-- Preservation of the two forest invariants by a successful solve at
node i: the node is marked solved and its dependents are generated. -/
theorem solveFill_inv (gens : String → PuzzleSpecArg) (f : List TreeNode)
    (i : Nat) (n : TreeNode) (p : Puzzle)
    (hfi : f.get? i = Option.some n) (hnp : n.puzzle = Option.some p)
    (h1 : depInv f) (h2 : depFull f) :
    depInv (((f.set i { n with
        puzzle := Option.some { p with solved := true } }).enum).map
        (fillChild gens i)) ∧
    depFull (((f.set i { n with
        puzzle := Option.some { p with solved := true } }).enum).map
        (fillChild gens i)) := by
  have hlen : i < f.length := get?_lt hfi
  have hf1i : (f.set i { n with
      puzzle := Option.some { p with solved := true } }).get? i
      = Option.some { n with puzzle := Option.some { p with solved := true } } :=
    get?_set_self f i _ hlen
  have hf1 : ∀ j, j ≠ i → (f.set i { n with
      puzzle := Option.some { p with solved := true } }).get? j = f.get? j :=
    fun j hj => get?_set_ne f i j _ (fun e => hj e.symm)
  have hgi : (((f.set i { n with
      puzzle := Option.some { p with solved := true } }).enum).map
      (fillChild gens i)).get? i
      = Option.some { n with puzzle := Option.some { p with solved := true } } := by
    rw [get?_enum_map, hf1i]
    simp only [Option.map_some']
    rw [fillChild_keepSome gens i i _ { p with solved := true } rfl]
  have hPSgi : parentSolved (((f.set i { n with
      puzzle := Option.some { p with solved := true } }).enum).map
      (fillChild gens i)) i :=
    ⟨{ n with puzzle := Option.some { p with solved := true } },
      { p with solved := true }, hgi, rfl, rfl⟩
  have lift : ∀ i1, parentSolved f i1 → parentSolved (((f.set i { n with
      puzzle := Option.some { p with solved := true } }).enum).map
      (fillChild gens i)) i1 := by
    intro i1 hps
    by_cases hii : i1 = i
    · subst hii
      exact hPSgi
    · obtain ⟨mm, pp, hm, hp, hs⟩ := hps
      refine ⟨mm, pp, ?_, hp, hs⟩
      rw [get?_enum_map, hf1 i1 hii, hm]
      simp only [Option.map_some']
      rw [fillChild_keepSome gens i i1 mm pp hp]
  constructor
  · intro j n' i1 hj hpar hsome
    by_cases hii : i1 = i
    · subst hii
      exact hPSgi
    · rw [get?_enum_map] at hj
      cases hf1j : (f.set i { n with
          puzzle := Option.some { p with solved := true } }).get? j with
      | none => rw [hf1j] at hj; cases hj
      | some m =>
        rw [hf1j] at hj
        simp only [Option.map_some'] at hj
        injection hj with hj
        have hmpar : m.parent = Option.some i1 := by
          rw [← fillChild_parent gens i j m, hj]
          exact hpar
        have hmn : fillChild gens i (j, m) = m :=
          fillChild_of_other gens i i1 j m hmpar hii
        have hsome' : m.puzzle.isSome = true := by
          rw [← hmn, hj]
          exact hsome
        by_cases hji : j = i
        · subst hji
          rw [hf1i] at hf1j
          injection hf1j with hf1j
          have hnpar : n.parent = Option.some i1 := by
            rw [show n.parent = ({ n with
                puzzle := Option.some { p with solved := true } } : TreeNode).parent
              from rfl, hf1j]
            exact hmpar
          exact lift i1 (h1 j n i1 hfi hnpar (by rw [hnp]; rfl))
        · have hfj : f.get? j = Option.some m := by
            rw [← hf1 j hji]
            exact hf1j
          exact lift i1 (h1 j m i1 hfj hmpar hsome')
  · intro i1 hps' j n' hj hpar
    by_cases hii : i1 = i
    · subst hii
      rw [get?_enum_map] at hj
      cases hf1j : (f.set i1 { n with
          puzzle := Option.some { p with solved := true } }).get? j with
      | none => rw [hf1j] at hj; cases hj
      | some m =>
        rw [hf1j] at hj
        simp only [Option.map_some'] at hj
        injection hj with hj
        have hmpar : m.parent = Option.some i1 := by
          rw [← fillChild_parent gens i1 j m, hj]
          exact hpar
        rw [← hj]
        exact fillChild_isSome gens i1 j m hmpar
    · obtain ⟨m', p', hm', hp', hs'⟩ := hps'
      rw [get?_enum_map] at hm'
      cases hf1i1 : (f.set i { n with
          puzzle := Option.some { p with solved := true } }).get? i1 with
      | none => rw [hf1i1] at hm'; cases hm'
      | some m0 =>
        rw [hf1i1] at hm'
        simp only [Option.map_some'] at hm'
        injection hm' with hm'
        have hfm0 : f.get? i1 = Option.some m0 := by
          rw [← hf1 i1 hii]
          exact hf1i1
        have hpsf : parentSolved f i1 := by
          cases hq0 : m0.puzzle with
          | some q0 =>
            rw [fillChild_keepSome gens i i1 m0 q0 hq0] at hm'
            refine ⟨m0, p', hfm0, ?_, hs'⟩
            rw [hm']
            exact hp'
          | none =>
            by_cases hc : (m0.parent == Option.some i) = true
            · have hfill : fillChild gens i (i1, m0) = { m0 with
                  puzzle := Option.some (mkGenerated gens i1 m0.generator) } := by
                simp [fillChild, hc, hq0]
              rw [hfill] at hm'
              rw [← hm'] at hp'
              simp only at hp'
              injection hp' with hp'
              rw [← hp', mkGenerated_unsolved] at hs'
              cases hs'
            · have hcf : (m0.parent == Option.some i) = false := by
                rwa [Bool.not_eq_true] at hc
              have hfill : fillChild gens i (i1, m0) = m0 := by
                simp [fillChild, hcf]
              rw [hfill] at hm'
              rw [← hm', hq0] at hp'
              cases hp'
        rw [get?_enum_map] at hj
        cases hf1j : (f.set i { n with
            puzzle := Option.some { p with solved := true } }).get? j with
        | none => rw [hf1j] at hj; cases hj
        | some m =>
          rw [hf1j] at hj
          simp only [Option.map_some'] at hj
          injection hj with hj
          have hmpar : m.parent = Option.some i1 := by
            rw [← fillChild_parent gens i j m, hj]
            exact hpar
          by_cases hji : j = i
          · subst hji
            rw [hf1i] at hf1j
            injection hf1j with hf1j
            rw [← hj, ← hf1j]
            rw [fillChild_keepSome gens j j { n with
              puzzle := Option.some { p with solved := true } }
              { p with solved := true } rfl]
            rfl
          · have hfj : f.get? j = Option.some m := by
              rw [← hf1 j hji]
              exact hf1j
            have hms : m.puzzle.isSome = true := h2 i1 hpsf j m hfj hmpar
            obtain ⟨qm, hqm⟩ := Option.isSome_iff_exists.mp hms
            rw [← hj, fillChild_keepSome gens i j m qm hqm]
            exact hms

/-- One host operation preserves both forest invariants. -/
theorem hostStep_inv (gens : String → PuzzleSpecArg) (f : List TreeNode)
    (op : HostOp) (h1 : depInv f) (h2 : depFull f) :
    depInv (hostStep gens f op) ∧ depFull (hostStep gens f op) := by
  cases op with
  | generateRoots => exact fillRoots_inv gens f h1 h2
  | solveNode i r =>
    cases hfi : f.get? i with
    | none =>
      have hstep : hostStep gens f (HostOp.solveNode i r) = f := by
        unfold hostStep
        simp only
        rw [hfi]
      rw [hstep]
      exact ⟨h1, h2⟩
    | some n =>
      cases hnp : n.puzzle with
      | none =>
        have hstep : hostStep gens f (HostOp.solveNode i r) = f := by
          unfold hostStep
          simp only
          rw [hfi]
          simp only
          rw [hnp]
        rw [hstep]
        exact ⟨h1, h2⟩
      | some p =>
        cases hv : checkerVerdict p.question p.solved r with
        | error e =>
          have hstep : hostStep gens f (HostOp.solveNode i r) = f := by
            unfold hostStep
            simp only
            rw [hfi]
            simp only
            rw [hnp]
            simp only
            rw [hv]
          rw [hstep]
          exact ⟨h1, h2⟩
        | ok pr =>
          obtain ⟨ns, fb⟩ := pr
          by_cases hns : ns = true
          · subst hns
            have hstep : hostStep gens f (HostOp.solveNode i r)
                = ((f.set i { n with
                    puzzle := Option.some { p with solved := true } }).enum).map
                  (fillChild gens i) := by
              unfold hostStep
              simp only
              rw [hfi]
              simp only
              rw [hnp]
              simp only
              rw [hv]
              simp only
              exact if_pos trivial
            rw [hstep]
            exact solveFill_inv gens f i n p hfi hnp h1 h2
          · have hnsf : ns = false := by
              cases ns
              · rfl
              · exact absurd rfl hns
            subst hnsf
            have hsv : p.solved = false := by
              have hq := checkerVerdict_ns hv
              cases hsvv : p.solved
              · rfl
              · rw [hsvv] at hq
                simp at hq
            have hstep : hostStep gens f (HostOp.solveNode i r) = f := by
              unfold hostStep
              simp only
              rw [hfi]
              simp only
              rw [hnp]
              simp only
              rw [hv]
              simp only
              rw [if_neg Bool.false_ne_true]
              rw [show ({ p with solved := false } : Puzzle) = p from by
                rw [← hsv]]
              rw [show ({ n with puzzle := Option.some p } : TreeNode) = n from by
                rw [← hnp]]
              exact set_of_get? f i n hfi
            rw [hstep]
            exact ⟨h1, h2⟩

/-- Any sequence of host operations preserves both forest invariants. -/
theorem hostRun_inv (gens : String → PuzzleSpecArg) (ops : List HostOp) :
    ∀ f : List TreeNode, depInv f → depFull f →
      depInv (hostRun gens f ops) ∧ depFull (hostRun gens f ops) := by
  induction ops with
  | nil => exact fun f h1 h2 => ⟨h1, h2⟩
  | cons op rest ih =>
    intro f h1 h2
    have hstep := hostStep_inv gens f op h1 h2
    exact ih (hostStep gens f op) hstep.1 hstep.2

/-! Claim C4. -/

/-- C4: in the puzzle dependency forest, starting from a forest with no
generated puzzles, after any sequence of generateRoots and solve
operations, every generated dependent has a solved parent (so a dependent
puzzle is null until its parent is solved, and dependents of an unsolved
node are never generated), and every dependent of a solved node carries a
puzzle (so immediately after a parent transitions to solved, the puzzles
of its dependents are non-null). -/
theorem C4_dependency_unlocking (gens : String → PuzzleSpecArg)
    (f0 : List TreeNode) (ops : List HostOp)
    (h0 : ∀ n ∈ f0, n.puzzle.isNone = true) :
    depInv (hostRun gens f0 ops) ∧ depFull (hostRun gens f0 ops) := by
  have base1 : depInv f0 := by
    intro j n i hj hpar hsome
    have hn : n ∈ f0 := List.get?_mem hj
    rw [Option.isNone_iff_eq_none.mp (h0 n hn)] at hsome
    cases hsome
  have base2 : depFull f0 := by
    intro i hps j n hj hpar
    obtain ⟨m, p, hm, hp, hsol⟩ := hps
    have hmm : m ∈ f0 := List.get?_mem hm
    rw [Option.isNone_iff_eq_none.mp (h0 m hmm)] at hp
    cases hp
  exact hostRun_inv gens ops f0 base1 base2

/-- Witness for C4: generating the roots of the sample forest, then
solving the root — the dependent becomes generated. -/
theorem C4_dependency_unlocking_witness :
    depInv (hostRun gensF forest0
      [HostOp.generateRoots, HostOp.solveNode 0 (PyVal.bool true)]) ∧
    depFull (hostRun gensF forest0
      [HostOp.generateRoots, HostOp.solveNode 0 (PyVal.bool true)]) :=
  C4_dependency_unlocking gensF forest0
    [HostOp.generateRoots, HostOp.solveNode 0 (PyVal.bool true)] (by decide)

end ShellAdventure
